import Mathlib

/-!
Shallow embedding of the resumable-pipeline core of the video-learn
repository (backend/services/intermediate_service.py,
backend/services/vad_service.py, backend/routers/video.py,
backend/routers/websocket.py), together with theorems settling the
specification claims about it.

Conventions of the embedding:
* Python floats are modelled as rationals (ℚ).
* `datetime.now().isoformat()` timestamps are opaque: each mutating
  operation takes the produced timestamp string as an explicit `now`
  argument.
* Dictionaries with a fixed key set are modelled as structures; JSON
  persistence (`_save_state` / `json.dump`) is modelled by returning the
  state value that would be written.
* A `while` loop over rationals is modelled with an explicit fuel that is
  provably sufficient (see `forced_fuel_exit`).
-/

/-- Stage status enum, from `StageStatus` in intermediate_service.py. -/
inductive StageStatus where
  | pending
  | in_progress
  | completed
  | failed
deriving DecidableEq, Repr

/-- The stage catalog, from `STAGE_DEFINITIONS` in intermediate_service.py:
(id, name, label). -/
def STAGE_DEFINITIONS : List (Nat × String × String) :=
  [(1, "extract_audio", "提取音频"),
   (2, "asr", "语音识别"),
   (3, "text_correct", "文本纠错"),
   (4, "align", "时间对齐"),
   (5, "subtitle", "生成字幕"),
   (6, "section_split", "划分小节"),
   (7, "lecture_gen", "生成讲义")]

/-- `get_stage_id` from intermediate_service.py: first catalog entry with the
given name. -/
def get_stage_id (stage_name : String) : Option Nat :=
  (STAGE_DEFINITIONS.find? (fun s => s.2.1 = stage_name)).map (fun s => s.1)

/-- `get_stage_name` from intermediate_service.py. -/
def get_stage_name (stage_id : Nat) : Option String :=
  (STAGE_DEFINITIONS.find? (fun s => s.1 = stage_id)).map (fun s => s.2.1)

/-- One element of the `stages` array of the persisted pipeline state. -/
structure StageRecord where
  stage_id : Nat
  stage_name : String
  stage_label : String
  status : StageStatus
  started_at : Option String
  completed_at : Option String
  result_file : Option String
  error : Option String
deriving DecidableEq, Repr

/-- The persisted pipeline state dictionary built by
`IntermediateService.initialize_pipeline`. -/
structure PipelineState where
  task_id : String
  video_name : String
  video_path : String
  output_dir : String
  created_at : String
  updated_at : String
  duration : Option ℚ
  stages : List StageRecord
  hotwords : List String
  metadata_version : String
deriving DecidableEq, Repr

/-- `IntermediateService.initialize_pipeline`: builds (and persists) a fresh
state with one pending record per catalog entry.  The Python method performs
no existence check before writing. -/
def init_pipeline (now : String) (output_dir task_id video_name video_path : String)
    (hotwords : Option (List String)) (duration : Option ℚ) : PipelineState :=
  { task_id := task_id
    video_name := video_name
    video_path := video_path
    output_dir := output_dir
    created_at := now
    updated_at := now
    duration := duration
    stages := STAGE_DEFINITIONS.map (fun stage =>
      { stage_id := stage.1
        stage_name := stage.2.1
        stage_label := stage.2.2
        status := StageStatus.pending
        started_at := none
        completed_at := none
        result_file := none
        error := none })
    hotwords := hotwords.getD []
    metadata_version := "1.0" }

/-- Content of the persisted state file after `initialize_pipeline` runs,
as a function of what the file held before: the fresh state is written
unconditionally (the Python method never reads or checks the existing
file). -/
def store_after_init (existing : Option PipelineState)
    (now : String) (output_dir task_id video_name video_path : String)
    (hotwords : Option (List String)) (duration : Option ℚ) : Option PipelineState :=
  some (init_pipeline now output_dir task_id video_name video_path hotwords duration)

/-- Body of the per-record update in `update_stage_status` (the mutations
applied to the matched `stage` dict).  `error` models the optional `error`
argument; Python's `if error:` is false for `None` and for the empty
string. -/
def apply_status (now : String) (stage_name : String) (status : StageStatus)
    (error : Option String) (r : StageRecord) : StageRecord :=
  let r1 := { r with status := status }
  let r2 := if status = StageStatus.in_progress then
      { r1 with started_at := some now, error := none }
    else r1
  let r3 := if status = StageStatus.completed ∨ status = StageStatus.failed then
      { r2 with completed_at := some now }
    else r2
  let r4 := match error with
    | some e => if e = "" then r3 else { r3 with error := some e }
    | none => r3
  if status = StageStatus.completed then
    let fname := "stage_" ++ toString r.stage_id ++ "_" ++ stage_name ++ ".json"
    { r4 with result_file := some fname }
  else r4

/-- The `for ... break` scan of `update_stage_status`: update the first
record whose `stage_name` matches, leave every other record unchanged. -/
def set_stage (now : String) (stage_name : String) (status : StageStatus)
    (error : Option String) : List StageRecord → List StageRecord
  | [] => []
  | r :: rest =>
    if r.stage_name = stage_name then
      apply_status now stage_name status error r :: rest
    else
      r :: set_stage now stage_name status error rest

/-- `IntermediateService.update_stage_status` as a pure transform on the
loaded state (`_save_state` bumps `updated_at`). -/
def update_stage_status (now : String) (state : PipelineState) (stage_name : String)
    (status : StageStatus) (error : Option String) : PipelineState :=
  { state with
      stages := set_stage now stage_name status error state.stages
      updated_at := now }

/-- `IntermediateService.update_duration` as a pure transform. -/
def update_duration (now : String) (state : PipelineState) (duration : ℚ) : PipelineState :=
  { state with duration := some duration, updated_at := now }

/-- The hotword overwrite performed by the orchestrator on reprocessing
(`state["hotwords"] = user_hotwords` followed by `_save_state`). -/
def set_hotwords (now : String) (state : PipelineState) (hw : List String) : PipelineState :=
  { state with hotwords := hw, updated_at := now }

/-- `IntermediateService.mark_stages_for_reprocess` as a pure transform:
every record with id at least the start stage's id is reset to pending with
its timestamps, error and result-file reference cleared; an unknown stage
name leaves the state unchanged. -/
def mark_stages_for_reprocess (now : String) (state : PipelineState)
    (start_stage_name : String) : PipelineState :=
  match get_stage_id start_stage_name with
  | none => state
  | some start_stage_id =>
    { state with
        stages := state.stages.map (fun r =>
          if start_stage_id ≤ r.stage_id then
            { r with
                status := StageStatus.pending
                started_at := none
                completed_at := none
                error := none
                result_file := none }
          else r)
        updated_at := now }

/-- Status of the named stage in a state (the lookup of `get_stage_info`). -/
def stage_status (state : PipelineState) (stage_name : String) : Option StageStatus :=
  (state.stages.find? (fun r => r.stage_name = stage_name)).map (fun r => r.status)

/-- The state-store mutations reachable through the service after
initialization (stage-status updates, duration updates, reprocess marking,
hotword overwrites). -/
inductive Mutation where
  | status_update (now : String) (stage_name : String) (status : StageStatus)
      (error : Option String)
  | duration_update (now : String) (duration : ℚ)
  | reprocess_mark (now : String) (start_stage_name : String)
  | hotwords_update (now : String) (hw : List String)

/-- Apply one mutation to a state. -/
def apply_mutation (m : Mutation) (state : PipelineState) : PipelineState :=
  match m with
  | Mutation.status_update now name status error =>
      update_stage_status now state name status error
  | Mutation.duration_update now d => update_duration now state d
  | Mutation.reprocess_mark now name => mark_stages_for_reprocess now state name
  | Mutation.hotwords_update now hw => set_hotwords now state hw

/-- The stage-id sequence of a state's records, in stored order. -/
def stage_ids (state : PipelineState) : List Nat :=
  state.stages.map (fun r => r.stage_id)

example : get_stage_id "text_correct" = some 3 := by decide
example : get_stage_id "nope" = none := by decide
example : stage_ids (init_pipeline "t" "o" "id" "v" "p" none none) =
    [1, 2, 3, 4, 5, 6, 7] := by decide

/-! ### Audio segmentation planner (VADService._calculate_split_points) -/

/-- The silence-interval computation of `_calculate_split_points`: walk the
speech timestamps keeping `prev_end`, emit `(prev_end, start)` whenever a
gap opens, and a final `(prev_end, total_duration)` gap when speech ends
before the end of the audio.  Speech timestamps are `(start, end)` pairs. -/
def silence_from (total_duration : ℚ) : ℚ → List (ℚ × ℚ) → List (ℚ × ℚ)
  | prev_end, [] => if prev_end < total_duration then [(prev_end, total_duration)] else []
  | prev_end, ts :: rest =>
    (if prev_end < ts.1 then [(prev_end, ts.1)] else []) ++ silence_from total_duration ts.2 rest

/-- The silence-walking loop of `_calculate_split_points`: returns the list
of midpoint cuts emitted (in order) and the final `current_segment_start`. -/
def split_loop (max_duration : ℚ) : List (ℚ × ℚ) → ℚ → List ℚ × ℚ
  | [], current => ([], current)
  | silence :: rest, current =>
    let silence_mid := (silence.1 + silence.2) / 2
    if max_duration < silence_mid - current then
      let r := split_loop max_duration rest silence_mid
      (silence_mid :: r.1, r.2)
    else
      split_loop max_duration rest current

/-- Fuel-indexed version of the forced-cut `while` loop
(`while current_segment_start + max_duration < total_duration`). -/
def forced_fuel (max_duration total_duration : ℚ) : Nat → ℚ → List ℚ
  | 0, _ => []
  | n + 1, current =>
    if current + max_duration < total_duration then
      (current + max_duration) :: forced_fuel max_duration total_duration n (current + max_duration)
    else []

/-- The forced-cut loop with a fuel provably sufficient to run the Python
`while` loop to its exit condition (`forced_fuel_exit` below). -/
def forced_cuts (max_duration total_duration current : ℚ) : List ℚ :=
  forced_fuel max_duration total_duration
    (Int.toNat ⌈(total_duration - current) / max_duration⌉) current

/-- `VADService._calculate_split_points`: `[0.0]`, then the midpoint cuts
from the silence walk, then forced cuts if the remaining tail still exceeds
the ceiling, then `total_duration`. -/
def calculate_split_points (max_duration : ℚ) (speech_timestamps : List (ℚ × ℚ))
    (total_duration : ℚ) : List ℚ :=
  let silence_intervals := silence_from total_duration 0 speech_timestamps
  let r := split_loop max_duration silence_intervals 0
  let tail := if max_duration < total_duration - r.2 then
      forced_cuts max_duration total_duration r.2
    else []
  0 :: (r.1 ++ tail ++ [total_duration])

/-- The claim's hypotheses on speech intervals: non-overlapping, ascending
sorted, contained in `[0, total_duration]`. -/
def sorted_speech (speech : List (ℚ × ℚ)) (total_duration : ℚ) : Prop :=
  List.Chain' (fun a b => a.2 ≤ b.1) speech ∧
    ∀ p ∈ speech, 0 ≤ p.1 ∧ p.1 ≤ p.2 ∧ p.2 ≤ total_duration

instance (speech : List (ℚ × ℚ)) (total_duration : ℚ) :
    Decidable (sorted_speech speech total_duration) := by
  unfold sorted_speech
  infer_instance

example : silence_from 1200 0 [(0, 600), (700, 1200)] = [(600, 700)] := by decide
example : calculate_split_points 600 [((0 : ℚ), 600), (700, 1200)] 1200 =
    [0, 650, 1200] := by
  norm_num [calculate_split_points, silence_from, split_loop]

example : calculate_split_points 500 [] 1200 = [0, 600, 1100, 1200] := by
  have hc : ⌈(6 : ℚ) / 5⌉ = 2 := by
    rw [Int.ceil_eq_iff] <;> norm_num
  norm_num [calculate_split_points, silence_from, split_loop, forced_cuts, hc, forced_fuel]

/-! ### Progress snapshot (websocket.build_progress_message) -/

/-- The stage list of websocket.py (`STAGES`): (name, label). -/
def STAGES : List (String × String) :=
  [("extract_audio", "提取音频"),
   ("asr", "语音识别"),
   ("text_correct", "文本纠错"),
   ("align", "时间对齐"),
   ("subtitle", "生成字幕"),
   ("section_split", "划分小节"),
   ("lecture_gen", "生成讲义")]

/-- One entry of the per-stage snapshot built by `build_progress_message`. -/
structure ProgressStage where
  name : String
  label : String
  status : String
  progress : Int
deriving DecidableEq, Repr

/-- The main loop of `build_progress_message`, carrying the `current_found`
flag. -/
def build_stages_loop (current_stage : String) (progress : Int) :
    List (String × String) → Bool → List ProgressStage
  | [], _ => []
  | stage :: rest, current_found =>
    if stage.1 = current_stage then
      { name := stage.1, label := stage.2, status := "in_progress", progress := progress } ::
        build_stages_loop current_stage progress rest true
    else if current_found = false then
      { name := stage.1, label := stage.2, status := "completed", progress := 100 } ::
        build_stages_loop current_stage progress rest current_found
    else
      { name := stage.1, label := stage.2, status := "pending", progress := 0 } ::
        build_stages_loop current_stage progress rest current_found

/-- The per-stage snapshot of `build_progress_message`: the loop above
followed by the terminal `done` / `error` post-passes. -/
def build_progress_stages (current_stage : String) (progress : Int) : List ProgressStage :=
  let stages := build_stages_loop current_stage progress STAGES false
  if current_stage = "done" then
    stages.map (fun s => { s with status := "completed", progress := 100 })
  else if current_stage = "error" then
    stages.map (fun s => if s.status = "in_progress" then { s with status := "failed" } else s)
  else stages

/-- The full message dictionary returned by `build_progress_message`. -/
structure ProgressMessage where
  task_id : String
  stage : String
  progress : Int
  message : String
  stages : List ProgressStage
deriving DecidableEq, Repr

/-- `build_progress_message` from websocket.py. -/
def build_progress_message (task_id : String) (current_stage : String)
    (progress : Int) (message : String) : ProgressMessage :=
  { task_id := task_id
    stage := current_stage
    progress := progress
    message := message
    stages := build_progress_stages current_stage progress }

example : (build_progress_stages "text_correct" 40).map (fun s => s.status) =
    ["completed", "completed", "in_progress", "pending", "pending", "pending", "pending"] := by
  decide

example : (build_progress_stages "error" 0).map (fun s => s.status) =
    ["completed", "completed", "completed", "completed", "completed", "completed",
     "completed"] := by decide

/-! ### Hotword merge (video.process_video_task, lines 94-101) -/

/-- The hotword combination of `process_video_task`: `combined_hotwords`
starts empty; the explicit request hotwords are appended when non-empty,
otherwise the persisted state hotwords when non-empty; then the
filename-derived keywords are appended when non-empty.  No deduplication is
performed. -/
def merge_hotwords (user_hotwords persisted_hotwords filename_keywords : List String) :
    List String :=
  let combined : List String := []
  let combined := if user_hotwords ≠ [] then combined ++ user_hotwords
    else if persisted_hotwords ≠ [] then combined ++ persisted_hotwords
    else combined
  let combined := if filename_keywords ≠ [] then combined ++ filename_keywords
    else combined
  combined

example : merge_hotwords ["A", "B"] ["B", "C"] ["C", "D"] = ["A", "B", "C", "D"] := by decide
example : merge_hotwords ["A"] [] ["A", "D"] = ["A", "A", "D"] := by decide

/-! ### Orchestrator (video.process_video_task) -/

/-- The stage name hard-coded in each numbered block of
`process_video_task` (also the value put into `processing_tasks[...]["stage"]`
on entering the block, which the exception handler reads back). -/
def stage_name_of : Nat → String
  | 1 => "extract_audio"
  | 2 => "asr"
  | 3 => "text_correct"
  | 4 => "align"
  | 5 => "subtitle"
  | 6 => "section_split"
  | 7 => "lecture_gen"
  | _ => "unknown"

/-- Persisted world of one task: the pipeline-state file plus the stage
result files written so far (`save_stage_result`), by stage name in write
order. -/
structure World where
  state : PipelineState
  saved : List String
deriving DecidableEq, Repr

/-- Entering a stage block: `update_stage_status(name, IN_PROGRESS)`. -/
def enter_stage (now : String) (i : Nat) (w : World) : World :=
  { w with state := update_stage_status now w.state (stage_name_of i) StageStatus.in_progress none }

/-- Successful end of a stage block: `save_stage_result(name, ...)` followed
by `update_stage_status(name, COMPLETED)`. -/
def complete_stage (now : String) (i : Nat) (w : World) : World :=
  { state := update_stage_status now w.state (stage_name_of i) StageStatus.completed none
    saved := w.saved ++ [stage_name_of i] }

/-- The `except` handler of `process_video_task`: mark the stage whose block
was active as failed, carrying `str(e)`. -/
def fail_stage (now : String) (i : Nat) (e : String) (w : World) : World :=
  { w with state := update_stage_status now w.state (stage_name_of i) StageStatus.failed (some e) }

/-- The sequence of guarded stage blocks of `process_video_task`.  Each
element pairs a stage id with the outcome of that stage's collaborator work
(`Except.error e` models the collaborator raising with `str(e) = e`).  A
block whose guard `start_stage_id <= i` fails loads the prior checkpoint
instead of executing (no state mutation); a raising collaborator aborts the
remaining blocks, which the handler then marks failed. -/
def run_stage_blocks (now : String) (start_stage_id : Nat) :
    List (Nat × Except String Unit) → World → World
  | [], w => w
  | (i, outcome) :: rest, w =>
    if start_stage_id ≤ i then
      match outcome with
      | Except.ok _ => run_stage_blocks now start_stage_id rest (complete_stage now i (enter_stage now i w))
      | Except.error e => fail_stage now i e (enter_stage now i w)
    else
      run_stage_blocks now start_stage_id rest w

/-- `process_video_task`'s seven stage blocks, driven by per-stage
collaborator outcomes. -/
def run_pipeline (now : String) (start_stage_id : Nat)
    (outcomes : List (Except String Unit)) (w : World) : World :=
  run_stage_blocks now start_stage_id (List.zip [1, 2, 3, 4, 5, 6, 7] outcomes) w

/-! ### Per-segment loops of the asr and align stage blocks -/

/-- An audio segment as consumed by the asr loop (`AudioSegment` with its
materialized file path). -/
structure SegIn where
  start_time : ℚ
  end_time : ℚ
  file_path : String
deriving DecidableEq, Repr

/-- One element of `segments_data` built by the asr stage block. -/
structure SegData where
  segment_id : Nat
  start_time : ℚ
  end_time : ℚ
  audio_file : String
  text : String
deriving DecidableEq, Repr

/-- A word timestamp produced by the aligner. -/
structure WordTs where
  word : String
  start_time : ℚ
  end_time : ℚ
deriving DecidableEq, Repr

/-- The per-segment recognition loop of the asr stage block
(video.py lines 190-219): each segment is transcribed inside a
`try/except`; on an exception the segment is still appended, with empty
text. -/
def asr_loop (recognize : SegIn → Except String String) (segs : List SegIn) : List SegData :=
  segs.enum.map (fun p =>
    match recognize p.2 with
    | Except.ok t =>
      { segment_id := p.1, start_time := p.2.start_time, end_time := p.2.end_time
        audio_file := p.2.file_path, text := t }
    | Except.error _ =>
      { segment_id := p.1, start_time := p.2.start_time, end_time := p.2.end_time
        audio_file := p.2.file_path, text := "" })

/-- The contribution of one corrected segment to `all_words` in the align
stage block (video.py lines 275-299): skipped when text or audio file is
empty, the aligner's words shifted by the segment start on success, nothing
on an exception (`continue`). -/
def align_contrib (align_text : String → String → Except String (List WordTs))
    (seg : SegData) : List WordTs :=
  if seg.text ≠ "" ∧ seg.audio_file ≠ "" then
    match align_text seg.audio_file seg.text with
    | Except.ok ws => ws.map (fun w =>
        { word := w.word, start_time := w.start_time + seg.start_time
          end_time := w.end_time + seg.start_time })
    | Except.error _ => []
  else []

/-- The align-stage accumulation loop: `all_words` extended segment by
segment. -/
def align_loop (align_text : String → String → Except String (List WordTs))
    (segs : List SegData) : List WordTs :=
  segs.foldl (fun all_words seg => all_words ++ align_contrib align_text seg) []

/-- The asr stage block as executed by the orchestrator: status
`in_progress`, the per-segment loop (which cannot raise, because its only
collaborator call sits inside the per-segment `try/except`), save the
result, status `completed`. -/
def asr_stage_block (now : String) (recognize : SegIn → Except String String)
    (segs : List SegIn) (w : World) : World × List SegData :=
  (complete_stage now 2 (enter_stage now 2 w), asr_loop recognize segs)

example :
    asr_loop (fun s => if s.file_path = "b" then Except.error "x" else Except.ok "hi")
      [⟨0, 1, "a"⟩, ⟨1, 2, "b"⟩] =
    [⟨0, 0, 1, "a", "hi"⟩, ⟨1, 1, 2, "b", ""⟩] := by decide

/-- The world produced by a fresh run (start stage 1) in which the first
`k - 1` collaborators succeed and stage `k`'s collaborator raises with
message `e` (further outcomes `rest` are never reached). -/
def run_with_failure_at (now0 now e : String) (rest : List (Except String Unit)) (k : Nat)
    (od tid vn vp : String) (hw : Option (List String)) (dur : Option ℚ) : World :=
  run_pipeline now 1 (List.replicate (k - 1) (Except.ok ()) ++ Except.error e :: rest)
    { state := init_pipeline now0 od tid vn vp hw dur, saved := [] }

/-! ### Helper lemmas -/

/-- `apply_status` never changes the identity fields of a record. -/
theorem apply_status_id_fields (now stage_name : String) (status : StageStatus)
    (error : Option String) (r : StageRecord) :
    (apply_status now stage_name status error r).stage_id = r.stage_id ∧
    (apply_status now stage_name status error r).stage_name = r.stage_name ∧
    (apply_status now stage_name status error r).stage_label = r.stage_label := by
  rcases error with _ | e
  · cases status <;> simp [apply_status]
  · by_cases he : e = "" <;> cases status <;> simp [apply_status, he]

/-- `set_stage` preserves the stage-id sequence. -/
theorem set_stage_map_id (now stage_name : String) (status : StageStatus)
    (error : Option String) :
    ∀ l : List StageRecord,
      (set_stage now stage_name status error l).map (fun r => r.stage_id) =
        l.map (fun r => r.stage_id)
  | [] => rfl
  | r :: rest => by
    by_cases h : r.stage_name = stage_name
    · simp [set_stage, h, (apply_status_id_fields now stage_name status error r).1]
    · simp [set_stage, h, set_stage_map_id now stage_name status error rest]

/-- Every single state mutation preserves the stage-id sequence. -/
theorem apply_mutation_stage_ids (m : Mutation) (s : PipelineState) :
    stage_ids (apply_mutation m s) = stage_ids s := by
  cases m with
  | status_update now name status error =>
    simp [apply_mutation, update_stage_status, stage_ids, set_stage_map_id]
  | duration_update now d => rfl
  | reprocess_mark now name =>
    simp only [apply_mutation, mark_stages_for_reprocess]
    cases get_stage_id name with
    | none => rfl
    | some sid =>
      simp only [stage_ids, List.map_map]
      apply List.map_congr_left
      intro r _
      by_cases h : sid ≤ r.stage_id <;> simp [h]
  | hotwords_update now hw => rfl

/-- Any sequence of mutations preserves the stage-id sequence. -/
theorem foldl_mutations_stage_ids :
    ∀ (ms : List Mutation) (s : PipelineState),
      stage_ids (ms.foldl (fun s m => apply_mutation m s) s) = stage_ids s
  | [], _ => rfl
  | m :: ms, s => by
    rw [List.foldl_cons, foldl_mutations_stage_ids ms, apply_mutation_stage_ids]

/-! ### Claim theorems -/

/-- C1: the claim says every pair of consecutive cut points differs by at
most `max_segment_duration`.  The code violates this (and its own
docstring): on the sorted, non-overlapping speech intervals
`[(0, 600), (700, 1200)]` with `total_duration = 1200` and
`max_segment_duration = 600`, `_calculate_split_points` returns
`[0, 650, 1200]`, whose first segment is 650 seconds long. -/
theorem calculate_split_points_exceeds_ceiling :
    sorted_speech [((0 : ℚ), 600), (700, 1200)] 1200 ∧
    calculate_split_points 600 [((0 : ℚ), 600), (700, 1200)] 1200 = [0, 650, 1200] ∧
    ¬ List.Chain' (fun a b => b - a ≤ (600 : ℚ))
        (calculate_split_points 600 [((0 : ℚ), 600), (700, 1200)] 1200) := by
  have h : calculate_split_points 600 [((0 : ℚ), 600), (700, 1200)] 1200 = [0, 650, 1200] := by
    norm_num [calculate_split_points, silence_from, split_loop]
  refine ⟨?_, h, ?_⟩
  · constructor
    · norm_num
    · intro p hp
      simp only [List.mem_cons, List.not_mem_nil, or_false] at hp
      rcases hp with rfl | rfl <;> norm_num
  · rw [h]
    intro hch
    have h01 := hch.rel_head
    norm_num at h01

/-- C2: the claim says a terminal `error` event reports the stage that was
in progress as `failed` and later stages as `pending`.  In the code,
`"error"` matches no catalog stage name, so `current_found` stays false and
the snapshot loop marks every stage `completed`; the subsequent
failed-marking pass finds no `in_progress` entry, so an error event reports
all seven stages `completed` — no stage is `failed` and none is
`pending`. -/
theorem build_progress_message_error_reports_all_completed :
    ((build_progress_message "t1" "error" 0 "处理失败").stages.map (fun s => s.status) =
      List.replicate 7 "completed") ∧
    (∀ s ∈ (build_progress_message "t1" "error" 0 "处理失败").stages,
      s.status ≠ "failed" ∧ s.status ≠ "pending") := by
  decide

/-- C6 counterexample: the claim says the merged hotword list is always
duplicate-free.  With explicit hotwords `["A"]` and derived hotwords
`["A", "D"]` the code produces `["A", "A", "D"]`, which has a duplicate. -/
theorem merge_hotwords_duplicates_survive :
    merge_hotwords ["A"] [] ["A", "D"] = ["A", "A", "D"] ∧
    ¬ (merge_hotwords ["A"] [] ["A", "D"]).Nodup := by
  decide

/-- C6 amended: the merge is plain concatenation — the explicit request
list when non-empty, otherwise the persisted list, followed by the derived
list; no deduplication is performed, and a non-empty explicit list drops
the persisted tier entirely.  On the spec's example this still yields
`["A", "B", "C", "D"]`, because the persisted tier `["B", "C"]` is
skipped. -/
theorem merge_hotwords_is_concat (user persisted derived : List String) :
    merge_hotwords user persisted derived =
      (if user = [] then persisted else user) ++ derived ∧
    merge_hotwords ["A", "B"] ["B", "C"] ["C", "D"] = ["A", "B", "C", "D"] := by
  refine ⟨?_, by decide⟩
  rcases user with _ | ⟨a, u⟩ <;> rcases persisted with _ | ⟨b, p⟩ <;>
    rcases derived with _ | ⟨c, d⟩ <;> simp [merge_hotwords]

/-- C7 counterexample: the claim says initializing over an existing state
fails without replacing it.  The code performs no existence check: with a
state already persisted, `initialize_pipeline` succeeds and the store ends
up holding the fresh state, not the old one. -/
theorem init_pipeline_overwrites_existing :
    store_after_init (some (init_pipeline "t0" "od" "task0" "v0" "p0" none none))
        "t1" "od" "task1" "v1" "p1" none none =
      some (init_pipeline "t1" "od" "task1" "v1" "p1" none none) ∧
    init_pipeline "t1" "od" "task1" "v1" "p1" none none ≠
      init_pipeline "t0" "od" "task0" "v0" "p0" none none := by
  decide

/-- C7 amended: `initialize_pipeline` never inspects the existing state —
the persisted result is the same whatever was there before (the caller in
`process_video_task` is the one who checks for existence first) — and the
state it creates has all seven stage records `pending`, with ids 1..7. -/
theorem init_pipeline_unconditional_all_pending (existing existing2 : Option PipelineState)
    (now od tid vn vp : String) (hw : Option (List String)) (dur : Option ℚ) :
    store_after_init existing now od tid vn vp hw dur =
      store_after_init existing2 now od tid vn vp hw dur ∧
    ∀ st, store_after_init existing now od tid vn vp hw dur = some st →
      st.stages.map (fun r => r.status) = List.replicate 7 StageStatus.pending ∧
      st.stages.map (fun r => r.stage_id) = [1, 2, 3, 4, 5, 6, 7] := by
  refine ⟨rfl, ?_⟩
  intro st hst
  have h : st = init_pipeline now od tid vn vp hw dur := by
    simpa [store_after_init] using hst.symm
  subst h
  exact ⟨rfl, rfl⟩

/-- Witness for C7 amended, at a concrete initialization. -/
theorem init_pipeline_unconditional_all_pending_witness :
    (init_pipeline "t" "od" "id" "v" "p" none none).stages.map (fun r => r.status) =
      List.replicate 7 StageStatus.pending ∧
    (init_pipeline "t" "od" "id" "v" "p" none none).stages.map (fun r => r.stage_id) =
      [1, 2, 3, 4, 5, 6, 7] :=
  (init_pipeline_unconditional_all_pending
      (some (init_pipeline "x" "od" "id0" "v0" "p0" none none)) none
      "t" "od" "id" "v" "p" none none).2 _ rfl

/-- C4 counterexample: the claim says the stage-status update rejects every
transition outside the table, leaving the state unchanged; in particular a
requested `pending -> completed` must be rejected.  The code applies it: on
a fresh state, updating `asr` (currently pending) to `completed` changes the
record's status to `completed`. -/
theorem update_stage_status_no_rejection :
    stage_status (init_pipeline "t0" "od" "task" "v" "p" none none) "asr" =
      some StageStatus.pending ∧
    stage_status
        (update_stage_status "t1" (init_pipeline "t0" "od" "task" "v" "p" none none)
          "asr" StageStatus.completed none) "asr" = some StageStatus.completed ∧
    update_stage_status "t1" (init_pipeline "t0" "od" "task" "v" "p" none none)
        "asr" StageStatus.completed none ≠
      init_pipeline "t0" "od" "task" "v" "p" none none := by
  decide

/-- C4 amended: `update_stage_status` applies every requested status
unconditionally to the first record with the given name — no transition
table is enforced.  Setting `in_progress` (with no error argument) records
`started_at` and clears any prior error; setting `completed` records the
`stage_{id}_{name}.json` checkpoint reference; records whose name does not
match are untouched. -/
theorem update_stage_status_unconditional (now stage_name : String) (status : StageStatus)
    (error : Option String) (r : StageRecord) (rest : List StageRecord) :
    (apply_status now stage_name status error r).status = status ∧
    (status = StageStatus.in_progress → error = none →
      (apply_status now stage_name status error r).started_at = some now ∧
      (apply_status now stage_name status error r).error = none) ∧
    (status = StageStatus.completed →
      (apply_status now stage_name status error r).result_file =
        some ("stage_" ++ toString r.stage_id ++ "_" ++ stage_name ++ ".json")) ∧
    (r.stage_name = stage_name →
      set_stage now stage_name status error (r :: rest) =
        apply_status now stage_name status error r :: rest) ∧
    (r.stage_name ≠ stage_name →
      set_stage now stage_name status error (r :: rest) =
        r :: set_stage now stage_name status error rest) := by
  refine ⟨?_, ?_, ?_, ?_, ?_⟩
  · rcases error with _ | e
    · cases status <;> simp [apply_status]
    · by_cases he : e = "" <;> cases status <;> simp [apply_status, he]
  · intro hs herr
    subst hs; subst herr
    simp [apply_status]
  · intro hs
    subst hs
    rcases error with _ | e
    · simp [apply_status]
    · by_cases he : e = "" <;> simp [apply_status, he]
  · intro hm
    simp [set_stage, hm]
  · intro hm
    simp [set_stage, hm]

/-- Witness for C4 amended: a concrete pending `asr` record driven straight
to `completed`, with the checkpoint reference recorded. -/
theorem update_stage_status_unconditional_witness :
    (apply_status "n1" "asr" StageStatus.completed none
        ⟨2, "asr", "语音识别", StageStatus.pending, none, none, none, none⟩).status =
      StageStatus.completed ∧
    (apply_status "n1" "asr" StageStatus.completed none
        ⟨2, "asr", "语音识别", StageStatus.pending, none, none, none, none⟩).result_file =
      some ("stage_" ++ toString (2 : Nat) ++ "_" ++ "asr" ++ ".json") := by
  have h := update_stage_status_unconditional "n1" "asr" StageStatus.completed none
    ⟨2, "asr", "语音识别", StageStatus.pending, none, none, none, none⟩ []
  exact ⟨h.1, h.2.2.1 rfl⟩

/-- C3: marking stages for reprocess from a valid stage with id `sid` resets
exactly the records with `stage_id >= sid` — status `pending`, timestamps,
error and result-file reference cleared — and leaves every record with
`stage_id < sid` unchanged in every field, for any prior state. -/
theorem mark_stages_for_reprocess_resets_tail (now : String) (state : PipelineState)
    (name : String) (sid : Nat) (h : get_stage_id name = some sid) :
    (mark_stages_for_reprocess now state name).stages.length = state.stages.length ∧
    ∀ (i : Nat) (r : StageRecord), state.stages[i]? = some r →
      ((r.stage_id < sid → (mark_stages_for_reprocess now state name).stages[i]? = some r) ∧
       (sid ≤ r.stage_id →
         (mark_stages_for_reprocess now state name).stages[i]? =
           some { r with
                    status := StageStatus.pending
                    started_at := none
                    completed_at := none
                    error := none
                    result_file := none })) := by
  unfold mark_stages_for_reprocess
  rw [h]
  simp only [List.length_map, true_and]
  intro i r hr
  constructor
  · intro hlt
    simp [List.getElem?_map, hr, Nat.not_le.mpr hlt]
  · intro hle
    simp [List.getElem?_map, hr, hle]

/-- Witness for C3: resuming from `align` (id 4) on a fresh state leaves the
`extract_audio` record (id 1) unchanged and resets the `subtitle` record
(id 5). -/
theorem mark_stages_for_reprocess_resets_tail_witness :
    (mark_stages_for_reprocess "t1" (init_pipeline "t0" "od" "id" "v" "p" none none)
        "align").stages[0]? =
      some { stage_id := 1
             stage_name := "extract_audio"
             stage_label := "提取音频"
             status := StageStatus.pending
             started_at := none
             completed_at := none
             result_file := none
             error := none } ∧
    (mark_stages_for_reprocess "t1" (init_pipeline "t0" "od" "id" "v" "p" none none)
        "align").stages[4]? =
      some { stage_id := 5
             stage_name := "subtitle"
             stage_label := "生成字幕"
             status := StageStatus.pending
             started_at := none
             completed_at := none
             result_file := none
             error := none } := by
  have h := mark_stages_for_reprocess_resets_tail "t1"
    (init_pipeline "t0" "od" "id" "v" "p" none none) "align" 4 (by decide)
  refine ⟨?_, ?_⟩
  · have h0 := (h.2 0 ⟨1, "extract_audio", "提取音频", StageStatus.pending,
      none, none, none, none⟩ (by decide)).1 (by decide)
    simpa using h0
  · have h4 := (h.2 4 ⟨5, "subtitle", "生成字幕", StageStatus.pending,
      none, none, none, none⟩ (by decide)).2 (by decide)
    simpa using h4

/-- C9: starting from initialization and applying any sequence of
state-store mutations (stage-status updates, duration updates, reprocess
marking, hotword overwrites), the stages array always has exactly seven
records whose ids are the contiguous sequence 1..7 in stored order. -/
theorem stage_ids_invariant (now od tid vn vp : String) (hw : Option (List String))
    (dur : Option ℚ) (ms : List Mutation) :
    stage_ids (ms.foldl (fun s m => apply_mutation m s)
        (init_pipeline now od tid vn vp hw dur)) = [1, 2, 3, 4, 5, 6, 7] ∧
    (ms.foldl (fun s m => apply_mutation m s)
        (init_pipeline now od tid vn vp hw dur)).stages.length = 7 := by
  have h := foldl_mutations_stage_ids ms (init_pipeline now od tid vn vp hw dur)
  have hinit : stage_ids (init_pipeline now od tid vn vp hw dur) = [1, 2, 3, 4, 5, 6, 7] := rfl
  rw [hinit] at h
  refine ⟨h, ?_⟩
  have hlen := congrArg List.length h
  simpa [stage_ids] using hlen

/-- Every silence interval produced by the complement walk is non-degenerate
and ends no later than `total_duration`, provided every speech interval
starts no later than `total_duration`. -/
theorem silence_from_mem (total : ℚ) :
    ∀ (speech : List (ℚ × ℚ)) (prev : ℚ), (∀ p ∈ speech, p.1 ≤ total) →
      ∀ q ∈ silence_from total prev speech, q.1 < q.2 ∧ q.2 ≤ total
  | [], prev => by
    intro _ q hq
    by_cases h : prev < total
    · simp only [silence_from, if_pos h, List.mem_singleton] at hq
      subst hq
      exact ⟨h, le_refl _⟩
    · simp [silence_from, if_neg h] at hq
  | ts :: rest, prev => by
    intro hsp q hq
    simp only [silence_from, List.mem_append] at hq
    rcases hq with hq | hq
    · by_cases h : prev < ts.1
      · simp only [if_pos h, List.mem_singleton] at hq
        subst hq
        exact ⟨h, hsp ts (List.mem_cons_self ts rest)⟩
      · simp [if_neg h] at hq
    · exact silence_from_mem total rest ts.2
        (fun p hp => hsp p (List.mem_cons_of_mem ts hp)) q hq

/-- The silence-walk loop emits a strictly increasing list of cut points,
each below `total_duration`, and its final `current_segment_start` is the
last point (or the initial one when nothing was emitted). -/
theorem split_loop_spec (max_duration total : ℚ) (hm : 0 < max_duration) :
    ∀ (silences : List (ℚ × ℚ)) (current : ℚ),
      (∀ q ∈ silences, q.1 < q.2 ∧ q.2 ≤ total) →
      List.Chain' (· < ·) (current :: (split_loop max_duration silences current).1) ∧
      (current :: (split_loop max_duration silences current).1).getLast? =
        some (split_loop max_duration silences current).2 ∧
      ∀ x ∈ (split_loop max_duration silences current).1, x < total
  | [], current => by
    intro _
    exact ⟨List.chain'_singleton _, rfl, by simp [split_loop]⟩
  | silence :: rest, current => by
    intro hs
    have hmem := hs silence (List.mem_cons_self silence rest)
    have hmid_lt_total : (silence.1 + silence.2) / 2 < total := by
      have h1 : (silence.1 + silence.2) / 2 < silence.2 := by linarith [hmem.1]
      linarith [hmem.2]
    have hrest : ∀ q ∈ rest, q.1 < q.2 ∧ q.2 ≤ total :=
      fun q hq => hs q (List.mem_cons_of_mem silence hq)
    simp only [split_loop]
    by_cases hcut : max_duration < (silence.1 + silence.2) / 2 - current
    · have ih := split_loop_spec max_duration total hm rest ((silence.1 + silence.2) / 2) hrest
      simp only [if_pos hcut]
      refine ⟨ih.1.cons (by linarith), ?_, ?_⟩
      · rw [List.getLast?_cons_cons]
        exact ih.2.1
      · intro x hx
        rcases List.mem_cons.mp hx with rfl | hx
        · exact hmid_lt_total
        · exact ih.2.2 x hx
    · simp only [if_neg hcut]
      exact split_loop_spec max_duration total hm rest current hrest

/-- The forced-cut loop emits a strictly increasing list of points, each
below `total_duration`, whatever its fuel. -/
theorem forced_fuel_spec (max_duration total : ℚ) (hm : 0 < max_duration) :
    ∀ (n : Nat) (current : ℚ),
      List.Chain' (· < ·) (current :: forced_fuel max_duration total n current) ∧
      ∀ x ∈ forced_fuel max_duration total n current, x < total
  | 0, current => ⟨List.chain'_singleton _, by simp [forced_fuel]⟩
  | n + 1, current => by
    by_cases h : current + max_duration < total
    · have ih := forced_fuel_spec max_duration total hm n (current + max_duration)
      simp only [forced_fuel, if_pos h]
      refine ⟨ih.1.cons (by linarith), ?_⟩
      intro x hx
      rcases List.mem_cons.mp hx with rfl | hx
      · exact h
      · exact ih.2 x hx
    · simp only [forced_fuel, if_neg h]
      exact ⟨List.chain'_singleton _, by simp⟩

/-- Gluing two chains at a shared endpoint. -/
theorem chain'_glue {α : Type} {R : α → α → Prop} {l t : List α} {c : α}
    (h1 : List.Chain' R l) (h2 : l.getLast? = some c) (h3 : List.Chain' R (c :: t)) :
    List.Chain' R (l ++ t) := by
  refine List.Chain'.append h1 h3.tail ?_
  intro x hx y hy
  rw [h2] at hx
  have hxc : c = x := by simpa using hx
  subst hxc
  exact h3.rel_head? hy

/-- The fuel given to `forced_cuts` is sufficient: at the end of the list
the Python loop's exit condition holds — the residual tail is at most
`max_duration`.  This is the faithfulness guarantee for modelling the
unbounded `while` loop with `forced_fuel`. -/
theorem forced_fuel_exit (max_duration total : ℚ) (hm : 0 < max_duration) :
    ∀ (n : Nat) (current : ℚ),
      Int.toNat ⌈(total - current) / max_duration⌉ ≤ n →
      ∀ c, (current :: forced_fuel max_duration total n current).getLast? = some c →
        total ≤ c + max_duration
  | 0, current => by
    intro hn c hc
    simp only [forced_fuel, List.getLast?_singleton, Option.some_inj] at hc
    subst hc
    have hceil : ⌈(total - current) / max_duration⌉ ≤ 0 := by omega
    have hdiv : (total - current) / max_duration ≤ 0 := by
      have := Int.ceil_le.mp hceil
      simpa using this
    have hsub : total - current ≤ 0 := by
      by_contra hpos
      push_neg at hpos
      have := div_pos hpos hm
      linarith
    linarith
  | n + 1, current => by
    intro hn c hc
    by_cases h : current + max_duration < total
    · rw [forced_fuel, if_pos h, List.getLast?_cons_cons] at hc
      have hrw : (total - (current + max_duration)) / max_duration =
          (total - current) / max_duration - 1 := by
        field_simp
        ring
      have hbound : Int.toNat ⌈(total - (current + max_duration)) / max_duration⌉ ≤ n := by
        rw [hrw, Int.ceil_sub_one]
        have h1 : (0 : Int) < ⌈(total - current) / max_duration⌉ :=
          Int.ceil_pos.mpr (div_pos (by linarith) hm)
        omega
      exact forced_fuel_exit max_duration total hm n (current + max_duration) hbound c hc
    · rw [forced_fuel, if_neg h, List.getLast?_singleton] at hc
      have hcc : current = c := by simpa using hc
      subst hcc
      linarith [not_lt.mp h]

/-- Packaging of `forced_fuel_exit` for `forced_cuts` itself: the chosen
fuel runs the modelled `while` loop to its genuine exit condition. -/
theorem forced_cuts_exit (max_duration total current : ℚ) (hm : 0 < max_duration) :
    ∀ c, (current :: forced_cuts max_duration total current).getLast? = some c →
      total ≤ c + max_duration := by
  intro c hc
  exact forced_fuel_exit max_duration total hm _ current (le_refl _) c
    (by simpa [forced_cuts] using hc)

/-- C8: for non-overlapping, ascending-sorted speech intervals inside
`[0, total_duration]`, positive `total_duration` and positive
`max_segment_duration`, the cut-point list of `_calculate_split_points` is
strictly increasing, starts with 0 and ends with `total_duration`. -/
theorem calculate_split_points_sound (speech : List (ℚ × ℚ)) (total max_duration : ℚ)
    (ht : 0 < total) (hm : 0 < max_duration) (hs : sorted_speech speech total) :
    List.Chain' (· < ·) (calculate_split_points max_duration speech total) ∧
    (calculate_split_points max_duration speech total).head? = some 0 ∧
    (calculate_split_points max_duration speech total).getLast? = some total := by
  have hstart : ∀ p ∈ speech, p.1 ≤ total := fun p hp =>
    le_trans (hs.2 p hp).2.1 (hs.2 p hp).2.2
  have hsil := silence_from_mem total speech 0 hstart
  obtain ⟨hchain0, hlast0, hmem0⟩ :=
    split_loop_spec max_duration total hm (silence_from total 0 speech) 0 hsil
  set r := split_loop max_duration (silence_from total 0 speech) 0 with hr
  have hc_lt : r.2 < total := by
    have hmem : r.2 ∈ 0 :: r.1 := List.mem_of_mem_getLast? hlast0
    rcases List.mem_cons.mp hmem with h0 | hmem
    · rw [h0]
      exact ht
    · exact hmem0 _ hmem
  set tail := if max_duration < total - r.2 then forced_cuts max_duration total r.2 else []
    with htail
  have htail_spec : List.Chain' (· < ·) (r.2 :: tail) ∧ ∀ x ∈ tail, x < total := by
    rw [htail]
    by_cases hcase : max_duration < total - r.2
    · rw [if_pos hcase]
      simpa [forced_cuts] using
        forced_fuel_spec max_duration total hm
          (Int.toNat ⌈(total - r.2) / max_duration⌉) r.2
    · rw [if_neg hcase]
      exact ⟨List.chain'_singleton _, by simp⟩
  have hfull : calculate_split_points max_duration speech total =
      (0 :: r.1) ++ (tail ++ [total]) := by
    rw [htail, hr]
    simp [calculate_split_points]
  have hchain_tail : List.Chain' (· < ·) (r.2 :: (tail ++ [total])) := by
    have heq : (r.2 :: tail) ++ [total] = r.2 :: (tail ++ [total]) := rfl
    rw [← heq]
    refine List.Chain'.append htail_spec.1 (List.chain'_singleton _) ?_
    intro x hx y hy
    have hy' : total = y := by simpa using hy
    rw [← hy']
    have hx' : x ∈ r.2 :: tail := List.mem_of_mem_getLast? hx
    rcases List.mem_cons.mp hx' with rfl | hxm
    · exact hc_lt
    · exact htail_spec.2 x hxm
  refine ⟨?_, ?_, ?_⟩
  · rw [hfull]
    exact chain'_glue hchain0 hlast0 hchain_tail
  · rw [hfull]
    rfl
  · rw [hfull]
    rw [List.getLast?_append_of_ne_nil _ (by simp)]
    rw [List.getLast?_append_of_ne_nil _ (by simp)]
    rfl

/-- Witness for C8, at a concrete short speech interval. -/
theorem calculate_split_points_sound_witness :
    sorted_speech [((0 : ℚ), 1 / 2)] 1 ∧
    List.Chain' (· < ·) (calculate_split_points 2 [((0 : ℚ), 1 / 2)] 1) ∧
    (calculate_split_points 2 [((0 : ℚ), 1 / 2)] 1).head? = some 0 ∧
    (calculate_split_points 2 [((0 : ℚ), 1 / 2)] 1).getLast? = some 1 := by
  have hsorted : sorted_speech [((0 : ℚ), 1 / 2)] 1 := by
    refine ⟨List.chain'_singleton _, ?_⟩
    intro p hp
    simp only [List.mem_singleton] at hp
    subst hp
    norm_num
  have h := calculate_split_points_sound [((0 : ℚ), 1 / 2)] 1 2
    (by norm_num) (by norm_num) hsorted
  exact ⟨hsorted, h.1, h.2.1, h.2.2⟩

set_option maxHeartbeats 1000000

/-- C5 counterexample: the claim says the failed stage carries the captured
error text.  When the collaborator's exception stringifies to the empty
string, `update_stage_status` skips storing it (Python's `if error:` is
false for `""`), so stage 3 is marked failed but its error field stays
`None`. -/
theorem run_failure_empty_error_not_recorded :
    ((run_with_failure_at "t0" "t1" "" [] 3 "od" "id" "v" "p" none none).state.stages[2]?).map
        (fun r => r.status) = some StageStatus.failed ∧
    ((run_with_failure_at "t0" "t1" "" [] 3 "od" "id" "v" "p" none none).state.stages[2]?).map
        (fun r => r.error) = some none := by decide

/-- C5 amended: when stage `k`'s collaborator raises with a non-empty
message `e` during a fresh run whose stages `1..k-1` succeeded, the
orchestrator marks exactly stage `k` failed carrying `e`, attempts no later
stage, leaves stages `1..k-1` completed with their checkpoint references
and saved outputs, and leaves stages `k+1..7` pending with their records
untouched since initialization.  (The non-empty hypothesis is forced by the
counterexample above: an empty captured text is not stored.) -/
theorem run_failure_isolated (now0 now e : String) (he : e ≠ "")
    (rest : List (Except String Unit)) (k : Nat) (hk1 : 1 ≤ k) (hk7 : k ≤ 7)
    (od tid vn vp : String) (hw : Option (List String)) (dur : Option ℚ) :
    (run_with_failure_at now0 now e rest k od tid vn vp hw dur).state.stages.map
        (fun r => r.status) =
      List.replicate (k - 1) StageStatus.completed ++
        StageStatus.failed :: List.replicate (7 - k) StageStatus.pending ∧
    (∀ r ∈ (run_with_failure_at now0 now e rest k od tid vn vp hw dur).state.stages.take (k - 1),
      r.status = StageStatus.completed ∧
      r.result_file = some ("stage_" ++ toString r.stage_id ++ "_" ++ r.stage_name ++ ".json")) ∧
    ((run_with_failure_at now0 now e rest k od tid vn vp hw dur).state.stages[k - 1]?).map
        (fun r => r.error) = some (some e) ∧
    (run_with_failure_at now0 now e rest k od tid vn vp hw dur).state.stages.drop k =
      (init_pipeline now0 od tid vn vp hw dur).stages.drop k ∧
    (run_with_failure_at now0 now e rest k od tid vn vp hw dur).saved =
      (STAGE_DEFINITIONS.take (k - 1)).map (fun d => d.2.1) := by
  interval_cases k <;>
    simp_all [run_with_failure_at, run_pipeline, run_stage_blocks, enter_stage, complete_stage,
      fail_stage, update_stage_status, set_stage, apply_status, init_pipeline,
      STAGE_DEFINITIONS, stage_name_of]

/-- Witness for C5 amended: a `CollaboratorFailure` with message `"boom"` on
stage 3 of 7 leaves stages 1-2 completed with their outputs saved, stage 3
failed carrying `"boom"`, and stages 4-7 pending. -/
theorem run_failure_isolated_witness :
    (run_with_failure_at "t0" "t1" "boom" [] 3 "od" "id" "v" "p" none none).state.stages.map
        (fun r => r.status) =
      List.replicate 2 StageStatus.completed ++
        StageStatus.failed :: List.replicate 4 StageStatus.pending ∧
    ((run_with_failure_at "t0" "t1" "boom" [] 3 "od" "id" "v" "p" none none).state.stages[2]?).map
        (fun r => r.error) = some (some "boom") ∧
    (run_with_failure_at "t0" "t1" "boom" [] 3 "od" "id" "v" "p" none none).saved =
      ["extract_audio", "asr"] := by
  have h := run_failure_isolated "t0" "t1" "boom" (by decide) [] 3 (by decide) (by decide)
    "od" "id" "v" "p" none none
  exact ⟨h.1, h.2.2.1, h.2.2.2.2⟩

/-- Folding list-append over a list is the same as `bind`. -/
theorem foldl_append_eq_bind {α β : Type} (f : α → List β) :
    ∀ (l : List α) (acc : List β),
      l.foldl (fun all seg => all ++ f seg) acc = acc ++ l.flatMap f
  | [], acc => by simp
  | x :: l, acc => by
    simp only [List.foldl_cons]
    rw [foldl_append_eq_bind f l (acc ++ f x)]
    simp [List.flatMap_cons, List.append_assoc]

/-- C10: per-segment collaborator failures never fail the stage.  In the asr
loop, every input segment yields exactly one output record in order; a
segment whose recognition raises is recorded with empty text (metadata
kept); the asr stage block still ends `completed` for every recognizer.  In
the align loop, the words are the in-order concatenation of per-segment
contributions, and a segment whose alignment call raises contributes no
words. -/
theorem per_segment_failure_isolated
    (recognize : SegIn → Except String String)
    (align_text : String → String → Except String (List WordTs))
    (segs : List SegIn) (corrected : List SegData)
    (now0 now od tid vn vp : String) (hw : Option (List String)) (dur : Option ℚ) :
    (asr_loop recognize segs).length = segs.length ∧
    (∀ (i : Nat) (seg : SegIn) (msg : String), segs[i]? = some seg →
      recognize seg = Except.error msg →
      (asr_loop recognize segs)[i]? = some
        { segment_id := i
          start_time := seg.start_time
          end_time := seg.end_time
          audio_file := seg.file_path
          text := "" }) ∧
    align_loop align_text corrected = corrected.flatMap (align_contrib align_text) ∧
    (∀ (seg : SegData) (msg : String),
      align_text seg.audio_file seg.text = Except.error msg →
      align_contrib align_text seg = []) ∧
    stage_status (asr_stage_block now recognize segs
        { state := init_pipeline now0 od tid vn vp hw dur, saved := [] }).1.state "asr" =
      some StageStatus.completed := by
  refine ⟨?_, ?_, ?_, ?_, ?_⟩
  · simp [asr_loop, List.enum_length]
  · intro i seg msg hind hrec
    simp only [asr_loop, List.getElem?_map, List.getElem?_enum, hind]
    simp [hrec]
  · simp [align_loop, foldl_append_eq_bind]
  · intro seg msg halign
    by_cases hcond : seg.text ≠ "" ∧ seg.audio_file ≠ ""
    · simp [align_contrib, hcond, halign]
    · simp [align_contrib, hcond]
  · simp [asr_stage_block, complete_stage, enter_stage, update_stage_status, set_stage,
      apply_status, init_pipeline, STAGE_DEFINITIONS, stage_name_of, stage_status]

/-- Witness for C10: a two-segment batch whose second recognition raises
yields two records with the second one empty, and a failing alignment call
contributes no words. -/
theorem per_segment_failure_isolated_witness :
    (asr_loop (fun s => if s.file_path = "b" then Except.error "x" else Except.ok "hi")
        [⟨0, 1, "a"⟩, ⟨1, 2, "b"⟩]).length = 2 ∧
    (asr_loop (fun s => if s.file_path = "b" then Except.error "x" else Except.ok "hi")
        [⟨0, 1, "a"⟩, ⟨1, 2, "b"⟩])[1]? = some ⟨1, 1, 2, "b", ""⟩ ∧
    align_contrib (fun _ _ => Except.error "y") ⟨0, 0, 1, "a", "hello"⟩ = [] := by
  have h := per_segment_failure_isolated
    (fun s => if s.file_path = "b" then Except.error "x" else Except.ok "hi")
    (fun _ _ => Except.error "y")
    [⟨0, 1, "a"⟩, ⟨1, 2, "b"⟩] [⟨0, 0, 1, "a", "hello"⟩]
    "n0" "n1" "od" "id" "v" "p" none none
  refine ⟨h.1, ?_, h.2.2.2.1 ⟨0, 0, 1, "a", "hello"⟩ "y" rfl⟩
  exact h.2.1 1 ⟨1, 2, "b"⟩ "x" rfl rfl
